import Mathlib

/-!
Shallow embedding of the latency-measurement engine of
`api-latency-test` (src/latency-test.js) and proofs of the
specification claims about it.

External effects (the HTTP fetch, the monotonic clock, the filesystem)
are modelled as explicit inputs: one `FetchEvent` per request attempt
describes what the network did, and the log store is a `StoredFile`
value describing the state of the JSON file on disk.  All numeric
computation in the source operates on integer-valued JS numbers
(latencies come from `Math.round`, counts are lengths), so it is
embedded over `Nat`/`Int` with JS `Math.round` on non-negative
rationals rendered as the exact half-up rounding `(2a + b) / (2b)`.
-/

namespace LatencyTest

/-- Configuration constants from the top of src/latency-test.js. -/
def DEFAULT_REQUEST_COUNT : Nat := 5

def DEFAULT_TIMEOUT : Int := 30000

def DEFAULT_DELAY : Int := 300

/-- Embeds `getConfiguredTimeout`.  The input is the result of
`parseInt(process.env.REQUEST_TIMEOUT, 10)`: `none` when the variable
is unset or unparsable (`NaN`), `some p` when it parsed to the integer
`p`.  Non-finite or non-positive values fall back to the default. -/
def getConfiguredTimeout (parsedTimeout : Option Int) : Int :=
  match parsedTimeout with
  | none => DEFAULT_TIMEOUT
  | some p => if p ≤ 0 then DEFAULT_TIMEOUT else p

/-- Embeds `getConfiguredDelay`: same shape, but negative values (not
zero) fall back to the default. -/
def getConfiguredDelay (parsedDelay : Option Int) : Int :=
  match parsedDelay with
  | none => DEFAULT_DELAY
  | some p => if p < 0 then DEFAULT_DELAY else p

/-- Embeds `categorizeLatency` from src/latency-test.js verbatim:
below 300 is Fast, 300 to 1000 is Medium, above 1000 is Slow.  The
claims restrict attention to non-negative integer latencies, so the
domain is `Nat`. -/
def categorizeLatency (latencyMs : Nat) : String :=
  if latencyMs < 300 then "Fast (Excellent)"
  else if latencyMs ≤ 1000 then "Medium (Acceptable/Good)"
  else "Slow (Poor/Unacceptable)"

/-- One per-attempt result record, mirroring the object literals built
in `performSingleRequest` (field `latency` holds the rounded elapsed
milliseconds; `category` is null unless the request succeeded). -/
structure RequestOutcome where
  requestNumber : Nat
  latency : Nat
  timestamp : String
  statusCode : Nat
  success : Bool
  errorMessage : Option String
  category : Option String
deriving Repr, DecidableEq

/-- What the network did for one attempt.  `response` carries the HTTP
status, reason phrase and the rounded elapsed milliseconds when a
response arrived; the three error constructors mirror the branches of
the catch block (AbortError from the timeout, ENOTFOUND or
ECONNREFUSED connectivity errors, and any other error), each with the
elapsed milliseconds measured up to the failure. -/
inductive FetchEvent where
  | response (status : Nat) (statusText : String) (latency : Nat)
  | abortError (latency : Nat)
  | networkError (message : String) (latency : Nat)
  | otherError (message : String) (latency : Nat)
deriving Repr, DecidableEq

/-- JS `response.ok`: status in the inclusive range 200 to 299. -/
def statusOk (status : Nat) : Bool := 200 ≤ status && status ≤ 299

/-- Embeds `performSingleRequest`.  The try branch builds a
success or HTTP-error outcome from the response; the catch branch
builds a failure outcome with statusCode 0 and an errorMessage chosen
by the error kind.  Latency is the measured elapsed time on every
branch. -/
def performSingleRequest (requestNumber : Nat) (timeout : Int)
    (timestamp : String) (ev : FetchEvent) : RequestOutcome :=
  match ev with
  | .response status statusText latency =>
      { requestNumber := requestNumber
        latency := latency
        timestamp := timestamp
        statusCode := status
        success := statusOk status
        errorMessage :=
          if statusOk status then none
          else some ("HTTP " ++ toString status ++ ": " ++ statusText)
        category :=
          if statusOk status then some (categorizeLatency latency) else none }
  | .abortError latency =>
      { requestNumber := requestNumber
        latency := latency
        timestamp := timestamp
        statusCode := 0
        success := false
        errorMessage := some ("Request timeout after " ++ toString timeout ++ "ms")
        category := none }
  | .networkError message latency =>
      { requestNumber := requestNumber
        latency := latency
        timestamp := timestamp
        statusCode := 0
        success := false
        errorMessage := some ("Network connectivity issue: " ++ message)
        category := none }
  | .otherError message latency =>
      { requestNumber := requestNumber
        latency := latency
        timestamp := timestamp
        statusCode := 0
        success := false
        errorMessage := some message
        category := none }

/-- Embeds `performLatencyTest`.  The source reads the timeout and the
inter-request delay from the environment via `getConfiguredTimeout`
and `getConfiguredDelay`, then runs a `for` loop from 1 to
`requestCount`, awaiting one request per iteration and pushing its
outcome; the delay only suspends between iterations and the loop has
no break, so the pure content is the ordered list of the per-attempt
outcomes.  `fetchOracle i` and `timestamps i` supply the network event
and start timestamp of attempt number `i`. -/
def performLatencyTest (fetchOracle : Nat → FetchEvent)
    (timestamps : Nat → String) (envTimeout envDelay : Option Int)
    (requestCount : Nat) : List RequestOutcome :=
  let timeout := getConfiguredTimeout envTimeout
  let _delayMs := getConfiguredDelay envDelay
  (List.range requestCount).map (fun i =>
    performSingleRequest (i + 1) timeout (timestamps (i + 1)) (fetchOracle (i + 1)))

/-- JS `Math.round (num / den)` for non-negative integers `num` and
positive `den`: rounding half up, this is the floor of
`num / den + 1 / 2`, i.e. `(2 num + den) / (2 den)` in integer
division.  Used for the average latency and the success rate in
`calculateMetrics`. -/
def mathRoundDiv (num den : Nat) : Nat := (2 * num + den) / (2 * den)

/-- JS `Math.min(...list)` for the nonempty lists it is applied to in
`calculateMetrics` (the value on `[]` is never used). -/
def listMin : List Nat → Nat
  | [] => 0
  | x :: xs => xs.foldl min x

/-- JS `Math.max(...list)` for the nonempty lists it is applied to in
`calculateMetrics` (the value on `[]` is never used). -/
def listMax : List Nat → Nat
  | [] => 0
  | x :: xs => xs.foldl max x

/-- The summary object returned by `calculateMetrics`. -/
structure Metrics where
  totalRequests : Nat
  successfulRequests : Nat
  failedRequests : Nat
  averageLatency : Nat
  minLatency : Nat
  maxLatency : Nat
  successRate : Nat
  averageCategory : String
deriving Repr, DecidableEq

/-- Embeds `calculateMetrics` from src/latency-test.js: partition by
the success flag; with zero successes return the all-zero summary with
the N/A sentinel; otherwise the average latency is `Math.round` of the
mean of the successful latencies (`reduce` sum divided by length), the
extrema come from `Math.min`/`Math.max`, the success rate is
`Math.round` of the success fraction times 100, and the average
category classifies the rounded average. -/
def calculateMetrics (results : List RequestOutcome) : Metrics :=
  let successfulResults := results.filter (fun r => r.success)
  let failedResults := results.filter (fun r => !r.success)
  if successfulResults.length = 0 then
    { totalRequests := results.length
      successfulRequests := 0
      failedRequests := results.length
      averageLatency := 0
      minLatency := 0
      maxLatency := 0
      successRate := 0
      averageCategory := "N/A" }
  else
    let latencies := successfulResults.map (fun r => r.latency)
    let averageLatency := mathRoundDiv (latencies.foldl (· + ·) 0) latencies.length
    { totalRequests := results.length
      successfulRequests := successfulResults.length
      failedRequests := failedResults.length
      averageLatency := averageLatency
      minLatency := listMin latencies
      maxLatency := listMax latencies
      successRate := mathRoundDiv (successfulResults.length * 100) results.length
      averageCategory := categorizeLatency averageLatency }

/-- A successful outcome as built by the success branch of
performSingleRequest, used as concrete test data. -/
def demoSuccess (rn latency : Nat) : RequestOutcome :=
  performSingleRequest rn 30000 "t0" (.response 200 "OK" latency)

/-- A failed outcome as built by the timeout branch of
performSingleRequest, used as concrete test data. -/
def demoFailure (rn : Nat) : RequestOutcome :=
  performSingleRequest rn 30000 "t0" (.abortError 40)

/-- The mixed scenario of the spec: successes at 100 ms and 200 ms
plus one failure. -/
def demoMixed : List RequestOutcome :=
  [demoSuccess 1 100, demoSuccess 2 200, demoFailure 3]

/-- A fetch oracle answering every attempt with an instant 200. -/
def demoFetch : Nat → FetchEvent := fun _ => .response 200 "OK" 100

/-- A constant timestamp supply for concrete runs. -/
def demoTimestamps : Nat → String := fun _ => "t0"

/-- The observable state of the log-store file, as `logResults` reads
it: absent (`fs.existsSync` false), present but whitespace-only
(`fileContent.trim()` falsy), present with content `JSON.parse`
throws on, present with JSON that is not an array, or present with a
JSON array of entries. -/
inductive StoredFile (α : Type) where
  | missing
  | blank
  | malformed
  | nonArrayValue
  | arrayOf (entries : List α)
deriving Repr, DecidableEq

/-- Result of one `logResults` call: the resulting store state and
whether the record was saved (false exactly when the catch block ran
and reported a persistence failure). -/
structure LogWriteResult (α : Type) where
  store : StoredFile α
  saved : Bool
deriving Repr, DecidableEq

/-- Embeds the persistence logic of `logResults`: start from `[]` when
the file is missing or blank; `JSON.parse` of malformed content throws
inside the try block, so the catch block runs and nothing is written;
a parsed non-array value is discarded via the `Array.isArray` guard;
otherwise the parsed array is kept.  The new entry is pushed at the
end and the whole array is written back. -/
def logResults {α : Type} (store : StoredFile α) (logEntry : α) :
    LogWriteResult α :=
  match store with
  | .missing => ⟨.arrayOf [logEntry], true⟩
  | .blank => ⟨.arrayOf [logEntry], true⟩
  | .malformed => ⟨.malformed, false⟩
  | .nonArrayValue => ⟨.arrayOf [logEntry], true⟩
  | .arrayOf entries => ⟨.arrayOf (entries ++ [logEntry]), true⟩

/-- Embeds the tail of `main`: on validation failure the process exits
with code 1 before any request; otherwise metrics are computed from
the collected outcomes, the session record (built by `mkEntry` from
the outcomes and metrics) is logged, and the exit code is 1 when any
request failed and 0 otherwise.  The logging result is carried in the
output so its independence from the exit code is expressible. -/
def main {α : Type} (mkEntry : List RequestOutcome → Metrics → α)
    (validationOk : Bool) (results : List RequestOutcome)
    (store : StoredFile α) : Option (Metrics × LogWriteResult α) × Nat :=
  if validationOk then
    let metrics := calculateMetrics results
    let logged := logResults store (mkEntry results metrics)
    (some (metrics, logged), if metrics.failedRequests > 0 then 1 else 0)
  else (none, 1)

end LatencyTest

namespace LatencyTest

/-- Summing with foldl from an accumulator is the accumulator plus the
list sum. -/
theorem foldl_add_eq_sum (l : List Nat) :
    ∀ a : Nat, l.foldl (· + ·) a = a + l.sum := by
  induction l with
  | nil => intro a; simp
  | cons x xs ih =>
      intro a
      simp only [List.foldl_cons, List.sum_cons, ih]
      omega

/-- foldl of min never exceeds its accumulator. -/
theorem foldl_min_le_init (l : List Nat) :
    ∀ init : Nat, l.foldl min init ≤ init := by
  induction l with
  | nil => intro init; simp
  | cons x xs ih =>
      intro init
      calc xs.foldl min (min init x) ≤ min init x := ih _
        _ ≤ init := min_le_left _ _

/-- foldl of min is a lower bound of every list element. -/
theorem foldl_min_le_mem (l : List Nat) :
    ∀ init : Nat, ∀ y ∈ l, l.foldl min init ≤ y := by
  induction l with
  | nil => intro init y hy; cases hy
  | cons x xs ih =>
      intro init y hy
      cases hy with
      | head =>
          calc xs.foldl min (min init x) ≤ min init x :=
                foldl_min_le_init _ _
            _ ≤ x := min_le_right _ _
      | tail _ htail => exact ih _ y htail

/-- foldl of min returns the accumulator or a list element. -/
theorem foldl_min_mem (l : List Nat) :
    ∀ init : Nat, l.foldl min init = init ∨ l.foldl min init ∈ l := by
  induction l with
  | nil => intro init; left; rfl
  | cons x xs ih =>
      intro init
      rcases ih (min init x) with h | h
      · rw [List.foldl_cons, h]
        rcases min_choice init x with hmin | hmin
        · left; exact hmin
        · right; rw [hmin]; exact List.mem_cons_self _ _
      · right; exact List.mem_cons_of_mem _ h

/-- foldl of max is at least its accumulator. -/
theorem init_le_foldl_max (l : List Nat) :
    ∀ init : Nat, init ≤ l.foldl max init := by
  induction l with
  | nil => intro init; simp
  | cons x xs ih =>
      intro init
      calc init ≤ max init x := le_max_left _ _
        _ ≤ xs.foldl max (max init x) := ih _

/-- foldl of max is an upper bound of every list element. -/
theorem mem_le_foldl_max (l : List Nat) :
    ∀ init : Nat, ∀ y ∈ l, y ≤ l.foldl max init := by
  induction l with
  | nil => intro init y hy; cases hy
  | cons x xs ih =>
      intro init y hy
      cases hy with
      | head =>
          calc x ≤ max init x := le_max_right _ _
            _ ≤ xs.foldl max (max init x) := init_le_foldl_max _ _
      | tail _ htail => exact ih _ y htail

/-- foldl of max returns the accumulator or a list element. -/
theorem foldl_max_mem (l : List Nat) :
    ∀ init : Nat, l.foldl max init = init ∨ l.foldl max init ∈ l := by
  induction l with
  | nil => intro init; left; rfl
  | cons x xs ih =>
      intro init
      rcases ih (max init x) with h | h
      · rw [List.foldl_cons, h]
        rcases max_choice init x with hmax | hmax
        · left; exact hmax
        · right; rw [hmax]; exact List.mem_cons_self _ _
      · right; exact List.mem_cons_of_mem _ h

/-- listMin of a nonempty list is one of its elements. -/
theorem listMin_mem {l : List Nat} (h : l ≠ []) : listMin l ∈ l := by
  match l with
  | [] => exact absurd rfl h
  | x :: xs =>
      rcases foldl_min_mem xs x with hx | hx
      · rw [listMin, hx]; exact List.mem_cons_self _ _
      · exact List.mem_cons_of_mem _ hx

/-- listMin is a lower bound of the list. -/
theorem listMin_le {l : List Nat} : ∀ x ∈ l, listMin l ≤ x := by
  match l with
  | [] => intro x hx; cases hx
  | y :: ys =>
      intro x hx
      cases hx with
      | head => exact foldl_min_le_init _ _
      | tail _ htail => exact foldl_min_le_mem _ _ _ htail

/-- listMax of a nonempty list is one of its elements. -/
theorem listMax_mem {l : List Nat} (h : l ≠ []) : listMax l ∈ l := by
  match l with
  | [] => exact absurd rfl h
  | x :: xs =>
      rcases foldl_max_mem xs x with hx | hx
      · rw [listMax, hx]; exact List.mem_cons_self _ _
      · exact List.mem_cons_of_mem _ hx

/-- listMax is an upper bound of the list. -/
theorem le_listMax {l : List Nat} : ∀ x ∈ l, x ≤ listMax l := by
  match l with
  | [] => intro x hx; cases hx
  | y :: ys =>
      intro x hx
      cases hx with
      | head => exact init_le_foldl_max _ _
      | tail _ htail => exact mem_le_foldl_max _ _ _ htail

/-- A uniform lower bound on the elements bounds the sum from below. -/
theorem length_mul_le_sum (l : List Nat) (m : Nat)
    (h : ∀ x ∈ l, m ≤ x) : l.length * m ≤ l.sum := by
  induction l with
  | nil => simp
  | cons x xs ih =>
      have hx := h x (List.mem_cons_self _ _)
      have hxs := ih fun y hy => h y (List.mem_cons_of_mem _ hy)
      simp only [List.length_cons, List.sum_cons, Nat.succ_mul]
      omega

/-- A uniform upper bound on the elements bounds the sum from above. -/
theorem sum_le_length_mul (l : List Nat) (M : Nat)
    (h : ∀ x ∈ l, x ≤ M) : l.sum ≤ l.length * M := by
  induction l with
  | nil => simp
  | cons x xs ih =>
      have hx := h x (List.mem_cons_self _ _)
      have hxs := ih fun y hy => h y (List.mem_cons_of_mem _ hy)
      simp only [List.length_cons, List.sum_cons, Nat.succ_mul]
      omega

/-- mathRoundDiv num den is the half-up rounding of num / den: it is
the unique m with m - 1/2 ≤ num / den < m + 1/2, stated over Int as
den * (2 m - 1) ≤ 2 num < den * (2 m + 1). -/
theorem mathRoundDiv_spec (num den : Nat) (hden : 0 < den) :
    (den : Int) * (2 * (mathRoundDiv num den : Int) - 1) ≤ 2 * (num : Int) ∧
    2 * (num : Int) < (den : Int) * (2 * (mathRoundDiv num den : Int) + 1) := by
  have hdiv := Nat.div_add_mod (2 * num + den) (2 * den)
  have hmod : (2 * num + den) % (2 * den) < 2 * den :=
    Nat.mod_lt _ (by omega)
  unfold mathRoundDiv
  set q := (2 * num + den) / (2 * den) with hq
  set r := (2 * num + den) % (2 * den) with hr
  have hq0 : (0 : Int) ≤ (q : Int) := Int.natCast_nonneg q
  have hr0 : (0 : Int) ≤ (r : Int) := Int.natCast_nonneg r
  have hdivZ : (2 : Int) * den * q + r = 2 * num + den := by
    exact_mod_cast congrArg (fun n : Nat => (n : Int)) hdiv
  have hmodZ : (r : Int) < 2 * den := by exact_mod_cast hmod
  constructor <;> nlinarith [hdivZ, hmodZ, hq0, hr0]

/-- The requestNumber stored in an outcome is the one passed in, on
every branch of performSingleRequest. -/
theorem performSingleRequest_requestNumber (rn : Nat) (t : Int)
    (ts : String) (ev : FetchEvent) :
    (performSingleRequest rn t ts ev).requestNumber = rn := by
  cases ev <;> rfl

/-- C1: categorizeLatency is total on Nat and the three tiers
partition the non-negative integers: Fast exactly below 300, Medium
exactly on 300..1000, Slow exactly above 1000; every input lands in
exactly one tier. -/
theorem categorizeLatency_partition (latencyMs : Nat) :
    (categorizeLatency latencyMs = "Fast (Excellent)" ↔ latencyMs < 300) ∧
    (categorizeLatency latencyMs = "Medium (Acceptable/Good)" ↔
      300 ≤ latencyMs ∧ latencyMs ≤ 1000) ∧
    (categorizeLatency latencyMs = "Slow (Poor/Unacceptable)" ↔ 1000 < latencyMs) ∧
    (categorizeLatency latencyMs = "Fast (Excellent)" ∨
      categorizeLatency latencyMs = "Medium (Acceptable/Good)" ∨
      categorizeLatency latencyMs = "Slow (Poor/Unacceptable)") := by
  unfold categorizeLatency
  split_ifs with h1 h2 <;>
    refine ⟨?_, ?_, ?_, ?_⟩ <;>
    simp only [String.reduceEq, false_iff, true_iff, iff_true, iff_false,
      true_or, or_true, false_or, or_false, not_and, not_lt, not_le] <;>
    omega

/-- C2: for every fetch oracle (in particular ones where any number of
attempts fail), every timeout and delay configuration and every count
N, performLatencyTest returns exactly N outcomes whose requestNumber
fields are 1, 2, ..., N in order; the outcome list never
short-circuits on failures, since the oracle is consulted at every one
of the N indices. -/
theorem performLatencyTest_sequence (fetchOracle : Nat → FetchEvent)
    (timestamps : Nat → String) (envTimeout envDelay : Option Int)
    (requestCount : Nat) :
    (performLatencyTest fetchOracle timestamps envTimeout envDelay
        requestCount).length = requestCount ∧
    (performLatencyTest fetchOracle timestamps envTimeout envDelay
        requestCount).map (fun o => o.requestNumber) =
      List.range' 1 requestCount := by
  constructor
  · simp [performLatencyTest]
  · simp only [performLatencyTest, List.map_map]
    rw [List.range'_eq_map_range]
    refine List.map_congr_left fun i _ => ?_
    simp [performSingleRequest_requestNumber, Nat.add_comm]

/-- C5: every outcome produced by performSingleRequest, on every
branch (2xx response, HTTP error status, timeout abort, network
failure, other failure), satisfies exactly one of: success is true and
category is set to categorizeLatency of the measured latency, or
success is false and category is null. -/
theorem performSingleRequest_success_category (rn : Nat) (t : Int)
    (ts : String) (ev : FetchEvent) :
    Xor'
      ((performSingleRequest rn t ts ev).success = true ∧
        (performSingleRequest rn t ts ev).category =
          some (categorizeLatency (performSingleRequest rn t ts ev).latency))
      ((performSingleRequest rn t ts ev).success = false ∧
        (performSingleRequest rn t ts ev).category = none) := by
  cases ev with
  | response status statusText latency =>
      by_cases h : statusOk status <;>
        simp [performSingleRequest, Xor', h]
  | abortError latency => simp [performSingleRequest, Xor']
  | networkError message latency => simp [performSingleRequest, Xor']
  | otherError message latency => simp [performSingleRequest, Xor']

/-- Splitting a list by a Boolean predicate preserves total length. -/
theorem length_filter_split {α : Type} (p : α → Bool) (l : List α) :
    (l.filter p).length + (l.filter fun x => !p x).length = l.length := by
  induction l with
  | nil => rfl
  | cons x xs ih =>
      by_cases h : p x <;> simp [List.filter_cons, h] <;> omega

/-- C4: the summary returned by calculateMetrics satisfies
successfulRequests + failedRequests = totalRequests = length of the
input list, on both the zero-success and the general branch. -/
theorem calculateMetrics_counts (results : List RequestOutcome) :
    (calculateMetrics results).successfulRequests +
        (calculateMetrics results).failedRequests =
      (calculateMetrics results).totalRequests ∧
    (calculateMetrics results).totalRequests = results.length := by
  have hsplit := length_filter_split (fun r => r.success) results
  unfold calculateMetrics
  by_cases h : (results.filter fun r => r.success).length = 0
  · simp [h]
  · simp [h]
    omega

/-- The latencies of the successful outcomes, as extracted in
calculateMetrics. -/
def successLatencies (results : List RequestOutcome) : List Nat :=
  (results.filter fun r => r.success).map fun r => r.latency

/-- Written from the spec: m is the round-half-up of num / den, i.e.
m - 1/2 ≤ num / den < m + 1/2, stated over Int without division. -/
def isRoundHalfUp (num den m : Nat) : Prop :=
  (den : Int) * (2 * (m : Int) - 1) ≤ 2 * (num : Int) ∧
  2 * (num : Int) < (den : Int) * (2 * (m : Int) + 1)

/-- Written from the spec: m is the minimum of the list l. -/
def isMinOf (m : Nat) (l : List Nat) : Prop := m ∈ l ∧ ∀ x ∈ l, m ≤ x

/-- Written from the spec: m is the maximum of the list l. -/
def isMaxOf (m : Nat) (l : List Nat) : Prop := m ∈ l ∧ ∀ x ∈ l, x ≤ m

/-- C3: calculateMetrics agrees with the reference aggregate.  With no
successful outcome it returns the all-zero summary with the N/A
sentinel.  Otherwise its averageLatency is the half-up rounding of the
mean of the successful latencies, its minLatency and maxLatency are
the extrema of the successful latencies, its successRate is the
half-up rounding of 100 times the success fraction, and its
averageCategory classifies the rounded average; moreover the mixed
scenario of two successes at 100 ms and 200 ms plus one failure yields
exactly averageLatency 150, minLatency 100, maxLatency 200,
successRate 67 and the Fast category. -/
theorem calculateMetrics_spec (results : List RequestOutcome) :
    ((results.filter fun r => r.success) = [] →
      calculateMetrics results =
        { totalRequests := results.length
          successfulRequests := 0
          failedRequests := results.length
          averageLatency := 0
          minLatency := 0
          maxLatency := 0
          successRate := 0
          averageCategory := "N/A" }) ∧
    ((results.filter fun r => r.success) ≠ [] →
      isMinOf (calculateMetrics results).minLatency (successLatencies results) ∧
      isMaxOf (calculateMetrics results).maxLatency (successLatencies results) ∧
      isRoundHalfUp (successLatencies results).sum
        (successLatencies results).length
        (calculateMetrics results).averageLatency ∧
      isRoundHalfUp ((results.filter fun r => r.success).length * 100)
        results.length (calculateMetrics results).successRate ∧
      (calculateMetrics results).averageCategory =
        categorizeLatency (calculateMetrics results).averageLatency) ∧
    calculateMetrics demoMixed =
      { totalRequests := 3
        successfulRequests := 2
        failedRequests := 1
        averageLatency := 150
        minLatency := 100
        maxLatency := 200
        successRate := 67
        averageCategory := "Fast (Excellent)" } := by
  refine ⟨?_, ?_, by decide⟩
  · intro h
    unfold calculateMetrics
    simp [h]
  · intro h
    have hlen : (results.filter fun r => r.success).length ≠ 0 := by
      simpa [List.length_eq_zero] using h
    have hlenpos : 0 < (results.filter fun r => r.success).length :=
      Nat.pos_of_ne_zero hlen
    have htotal : 0 < results.length := by
      have := List.length_filter_le (fun r => r.success) results
      omega
    have hlats : successLatencies results ≠ [] := by
      simpa [successLatencies, List.map_eq_nil_iff] using h
    have hlatslen : (successLatencies results).length =
        (results.filter fun r => r.success).length := by
      simp [successLatencies]
    have hmetrics :
        calculateMetrics results =
          { totalRequests := results.length
            successfulRequests := (results.filter fun r => r.success).length
            failedRequests := (results.filter fun r => !r.success).length
            averageLatency :=
              mathRoundDiv (successLatencies results).sum
                (successLatencies results).length
            minLatency := listMin (successLatencies results)
            maxLatency := listMax (successLatencies results)
            successRate :=
              mathRoundDiv ((results.filter fun r => r.success).length * 100)
                results.length
            averageCategory :=
              categorizeLatency
                (mathRoundDiv (successLatencies results).sum
                  (successLatencies results).length) } := by
      unfold calculateMetrics successLatencies
      simp [hlen, foldl_add_eq_sum]
    rw [hmetrics]
    exact ⟨⟨listMin_mem hlats, fun x hx => listMin_le x hx⟩,
      ⟨listMax_mem hlats, fun x hx => le_listMax x hx⟩,
      mathRoundDiv_spec _ _ (by omega),
      mathRoundDiv_spec _ _ htotal, rfl⟩

/-- Witness for calculateMetrics_spec: instantiates the zero-success
branch at the empty list, the general branch at the mixed demo list,
and reads off the concrete scenario values. -/
theorem calculateMetrics_spec_witness :
    calculateMetrics [] =
      { totalRequests := 0
        successfulRequests := 0
        failedRequests := 0
        averageLatency := 0
        minLatency := 0
        maxLatency := 0
        successRate := 0
        averageCategory := "N/A" } ∧
    isMinOf (calculateMetrics demoMixed).minLatency (successLatencies demoMixed) ∧
    (calculateMetrics demoMixed).averageCategory =
      categorizeLatency (calculateMetrics demoMixed).averageLatency ∧
    calculateMetrics demoMixed =
      { totalRequests := 3
        successfulRequests := 2
        failedRequests := 1
        averageLatency := 150
        minLatency := 100
        maxLatency := 200
        successRate := 67
        averageCategory := "Fast (Excellent)" } := by
  refine ⟨(calculateMetrics_spec []).1 rfl, ?_, ?_, (calculateMetrics_spec []).2.2⟩
  · exact ((calculateMetrics_spec demoMixed).2.1 (by decide)).1
  · exact ((calculateMetrics_spec demoMixed).2.1 (by decide)).2.2.2.2

/-- C10: whenever at least one outcome succeeded, the rounded average
latency lies between the extrema of the successful latencies. -/
theorem calculateMetrics_avg_between (results : List RequestOutcome)
    (h : (results.filter fun r => r.success) ≠ []) :
    (calculateMetrics results).minLatency ≤
        (calculateMetrics results).averageLatency ∧
    (calculateMetrics results).averageLatency ≤
      (calculateMetrics results).maxLatency := by
  have hlen : (results.filter fun r => r.success).length ≠ 0 := by
    simpa [List.length_eq_zero] using h
  have hlats : ((results.filter fun r => r.success).map fun r => r.latency) ≠ [] := by
    simpa [List.map_eq_nil_iff] using h
  unfold calculateMetrics
  simp only [hlen, if_false, foldl_add_eq_sum]
  set lats := ((results.filter fun r => r.success).map fun r => r.latency) with hlatsdef
  have hn : 0 < lats.length := List.length_pos.mpr hlats
  have hmin : lats.length * listMin lats ≤ lats.sum :=
    length_mul_le_sum _ _ (fun x hx => listMin_le x hx)
  have hmax : lats.sum ≤ lats.length * listMax lats :=
    sum_le_length_mul _ _ (fun x hx => le_listMax x hx)
  constructor
  · simp only [mathRoundDiv]
    rw [Nat.le_div_iff_mul_le (by omega : 0 < 2 * lats.length)]
    nlinarith [hmin]
  · simp only [mathRoundDiv]
    have hlt : (2 * (0 + lats.sum) + lats.length) / (2 * lats.length) <
        listMax lats + 1 := by
      rw [Nat.div_lt_iff_lt_mul (by omega : 0 < 2 * lats.length)]
      nlinarith [hmax]
    omega

/-- Witness for calculateMetrics_avg_between at the mixed demo list:
100 ≤ 150 ≤ 200. -/
theorem calculateMetrics_avg_between_witness :
    (calculateMetrics demoMixed).minLatency ≤
        (calculateMetrics demoMixed).averageLatency ∧
    (calculateMetrics demoMixed).averageLatency ≤
      (calculateMetrics demoMixed).maxLatency :=
  calculateMetrics_avg_between demoMixed (by decide)

/-- C6 counterexample: with a timeoutMs that is not a positive integer
(the environment parses to -5), the sequence controller does not fail
fast: getConfiguredTimeout silently substitutes the default 30000 and
both of the 2 requested attempts are still made, producing 2 outcomes
rather than none. -/
theorem performLatencyTest_no_failfast_counterexample :
    getConfiguredTimeout (some (-5)) = 30000 ∧
    (performLatencyTest demoFetch demoTimestamps (some (-5)) (some 300)
        2).length = 2 ∧
    (performLatencyTest demoFetch demoTimestamps (some (-5)) (some 300)
        2).length ≠ 0 := by
  refine ⟨by decide, by decide, by decide⟩

/-- C6 amended: the sequence controller performs no validation of its
own.  An invalid (non-positive or unparsable) timeout and an invalid
(negative or unparsable) delay are silently replaced by the defaults
30000 and 300 via getConfiguredTimeout and getConfiguredDelay, and all
requestCount attempts are still made; a requestCount of zero yields an
empty outcome list with no error. -/
theorem performLatencyTest_no_validation (fetchOracle : Nat → FetchEvent)
    (timestamps : Nat → String) (envTimeout envDelay : Option Int)
    (requestCount : Nat) :
    (performLatencyTest fetchOracle timestamps envTimeout envDelay
        requestCount).length = requestCount ∧
    (∀ t : Int, t ≤ 0 → getConfiguredTimeout (some t) = DEFAULT_TIMEOUT) ∧
    getConfiguredTimeout none = DEFAULT_TIMEOUT ∧
    (∀ d : Int, d < 0 → getConfiguredDelay (some d) = DEFAULT_DELAY) ∧
    getConfiguredDelay none = DEFAULT_DELAY ∧
    performLatencyTest fetchOracle timestamps envTimeout envDelay 0 = [] := by
  refine ⟨by simp [performLatencyTest], ?_, rfl, ?_, rfl, by simp [performLatencyTest]⟩
  · intro t ht
    simp [getConfiguredTimeout, if_pos ht]
  · intro d hd
    simp [getConfiguredDelay, if_pos hd]

/-- Witness for performLatencyTest_no_validation at an invalid timeout
of -5 and an invalid delay of -1 with 3 attempts. -/
theorem performLatencyTest_no_validation_witness :
    (performLatencyTest demoFetch demoTimestamps (some (-5)) (some (-1))
        3).length = 3 ∧
    getConfiguredTimeout (some (-5)) = DEFAULT_TIMEOUT ∧
    getConfiguredDelay (some (-1)) = DEFAULT_DELAY := by
  have h := performLatencyTest_no_validation demoFetch demoTimestamps
    (some (-5)) (some (-1)) 3
  exact ⟨h.1, h.2.1 (-5) (by decide), h.2.2.2.1 (-1) (by decide)⟩

/-- C7: logResults appends.  Persisting to a missing or blank store
yields the one-element array of the new record; persisting again to
the resulting store yields the two-element array with the first record
unchanged; in general persisting to any stored array appends the new
record at the end, leaving every prior entry and their order intact. -/
theorem logResults_append {α : Type} (e1 e2 : α) (l : List α) :
    (logResults (StoredFile.missing : StoredFile α) e1).store =
        StoredFile.arrayOf [e1] ∧
    (logResults (StoredFile.blank : StoredFile α) e1).store =
        StoredFile.arrayOf [e1] ∧
    (logResults (StoredFile.arrayOf [e1]) e2).store =
        StoredFile.arrayOf [e1, e2] ∧
    (logResults (StoredFile.arrayOf l) e2).store =
        StoredFile.arrayOf (l ++ [e2]) :=
  ⟨rfl, rfl, rfl, rfl⟩

/-- C8 counterexample: when the existing store content does not parse
as JSON, logResults does not replace the store with a one-element
array of the new record: JSON.parse throws inside the try block, the
catch block swallows the error, nothing is written, and the malformed
store stays as it was. -/
theorem logResults_malformed_counterexample :
    (logResults (StoredFile.malformed : StoredFile Nat) 0).store =
        StoredFile.malformed ∧
    (logResults (StoredFile.malformed : StoredFile Nat) 0).store ≠
        StoredFile.arrayOf [0] ∧
    (logResults (StoredFile.malformed : StoredFile Nat) 0).saved = false := by
  refine ⟨rfl, by decide, rfl⟩

/-- C8 amended: a store that parses to a non-array JSON value (and a
blank store) is replaced on the next persist by the one-element array
holding only the new record, without crashing; a store whose content
does not parse as JSON at all also does not crash the persist (the
error is caught and reported), but nothing is written: the malformed
content stays and the new record is not persisted. -/
theorem logResults_malformed_amended {α : Type} (e : α) :
    logResults (StoredFile.nonArrayValue : StoredFile α) e =
        ⟨StoredFile.arrayOf [e], true⟩ ∧
    logResults (StoredFile.blank : StoredFile α) e =
        ⟨StoredFile.arrayOf [e], true⟩ ∧
    logResults (StoredFile.malformed : StoredFile α) e =
        ⟨StoredFile.malformed, false⟩ :=
  ⟨rfl, rfl, rfl⟩

/-- failedRequests of the computed summary vanishes exactly when every
collected outcome has success true. -/
theorem calculateMetrics_failed_zero_iff (results : List RequestOutcome) :
    (calculateMetrics results).failedRequests = 0 ↔
      ∀ r ∈ results, r.success = true := by
  by_cases h : (results.filter fun r => r.success).length = 0
  · have hfr : (calculateMetrics results).failedRequests = results.length := by
      unfold calculateMetrics
      simp [h]
    rw [hfr]
    constructor
    · intro hlen r hr
      rw [List.length_eq_zero] at hlen
      subst hlen
      cases hr
    · intro hall
      have hfil : results.filter (fun r => r.success) = results :=
        List.filter_eq_self.mpr (fun a ha => hall a ha)
      rw [hfil] at h
      exact h
  · have hfr : (calculateMetrics results).failedRequests =
        (results.filter fun r => !r.success).length := by
      unfold calculateMetrics
      simp [h]
    rw [hfr, List.length_eq_zero, List.filter_eq_nil_iff]
    constructor
    · intro hnone r hr
      have := hnone r hr
      simpa using this
    · intro hall r hr
      simp [hall r hr]

/-- C9: the exit code of main is independent of the state of the log
store (reading or writing the store can fail without changing it), as
is the computed summary; the exit code is 0 exactly when validation
passed and every collected outcome succeeded, and 1 exactly when
validation failed or some outcome failed. -/
theorem main_exit_code {α : Type} (mkEntry : List RequestOutcome → Metrics → α)
    (validationOk : Bool) (results : List RequestOutcome)
    (store store2 : StoredFile α) :
    (main mkEntry validationOk results store).2 =
        (main mkEntry validationOk results store2).2 ∧
    Option.map Prod.fst (main mkEntry validationOk results store).1 =
        Option.map Prod.fst (main mkEntry validationOk results store2).1 ∧
    ((main mkEntry validationOk results store).2 = 0 ↔
      validationOk = true ∧ ∀ r ∈ results, r.success = true) ∧
    ((main mkEntry validationOk results store).2 = 1 ↔
      validationOk = false ∨ ¬ ∀ r ∈ results, r.success = true) := by
  have hiff := calculateMetrics_failed_zero_iff results
  cases validationOk with
  | false =>
      have hexit : (main mkEntry false results store).2 = 1 := rfl
      refine ⟨rfl, rfl, ?_, ?_⟩
      · rw [hexit]
        constructor
        · intro h10
          exact absurd h10 (by decide)
        · rintro ⟨hv, -⟩
          cases hv
      · rw [hexit]
        exact ⟨fun _ => Or.inl rfl, fun _ => rfl⟩
  | true =>
      refine ⟨rfl, rfl, ?_, ?_⟩
      · obtain hfail | hfail :=
          Nat.eq_zero_or_pos (calculateMetrics results).failedRequests
        · have hall := hiff.mp hfail
          have hexit : (main mkEntry true results store).2 = 0 := by
            show (if (calculateMetrics results).failedRequests > 0
              then 1 else 0) = 0
            rw [if_neg (by omega)]
          rw [hexit]
          exact ⟨fun _ => ⟨rfl, hall⟩, fun _ => rfl⟩
        · have hexit : (main mkEntry true results store).2 = 1 := by
            show (if (calculateMetrics results).failedRequests > 0
              then 1 else 0) = 1
            rw [if_pos (by omega)]
          rw [hexit]
          constructor
          · intro h10
            exact absurd h10 (by decide)
          · rintro ⟨-, hall⟩
            exfalso
            have := hiff.mpr hall
            omega
      · obtain hfail | hfail :=
          Nat.eq_zero_or_pos (calculateMetrics results).failedRequests
        · have hall := hiff.mp hfail
          have hexit : (main mkEntry true results store).2 = 0 := by
            show (if (calculateMetrics results).failedRequests > 0
              then 1 else 0) = 0
            rw [if_neg (by omega)]
          rw [hexit]
          constructor
          · intro h01
            exact absurd h01 (by decide)
          · rintro (hv | hnall)
            · cases hv
            · exact absurd hall hnall
        · have hexit : (main mkEntry true results store).2 = 1 := by
            show (if (calculateMetrics results).failedRequests > 0
              then 1 else 0) = 1
            rw [if_pos (by omega)]
          rw [hexit]
          refine ⟨fun _ => Or.inr fun hall => ?_, fun _ => rfl⟩
          have := hiff.mpr hall
          omega

/-- Witness for main_exit_code: with validation passed, a single
successful outcome and a missing store, the exit code is 0; with the
mixed list (one failure) it is 1; and the exit code over a malformed
store equals the exit code over a missing store. -/
theorem main_exit_code_witness :
    (main (fun _ _ => (0 : Nat)) true [demoSuccess 1 100]
        StoredFile.missing).2 = 0 ∧
    (main (fun _ _ => (0 : Nat)) true demoMixed StoredFile.missing).2 = 1 ∧
    (main (fun _ _ => (0 : Nat)) true demoMixed StoredFile.malformed).2 =
      (main (fun _ _ => (0 : Nat)) true demoMixed StoredFile.missing).2 := by
  refine ⟨?_, ?_, ?_⟩
  · exact ((main_exit_code (fun _ _ => (0 : Nat)) true [demoSuccess 1 100]
      StoredFile.missing StoredFile.missing).2.2.1).mpr ⟨rfl, by decide⟩
  · exact ((main_exit_code (fun _ _ => (0 : Nat)) true demoMixed
      StoredFile.missing StoredFile.missing).2.2.2).mpr (Or.inr (by decide))
  · exact (main_exit_code (fun _ _ => (0 : Nat)) true demoMixed
      StoredFile.malformed StoredFile.missing).1

/-- Witness for categorizeLatency_partition at the three tier
representatives 100, 300 and 1001. -/
theorem categorizeLatency_partition_witness :
    categorizeLatency 100 = "Fast (Excellent)" ∧
    categorizeLatency 300 = "Medium (Acceptable/Good)" ∧
    categorizeLatency 1001 = "Slow (Poor/Unacceptable)" :=
  ⟨(categorizeLatency_partition 100).1.mpr (by decide),
    ((categorizeLatency_partition 300).2.1).mpr (by decide),
    ((categorizeLatency_partition 1001).2.2.1).mpr (by decide)⟩

end LatencyTest
